import Mathlib

/-!
# Verification of the chaostoolkit-wiremock mapping engine

Shallow embedding of `chaoswm/driver.py` and `chaoswm/actions.py`.

JSON-like values (the payloads the driver manipulates) are modelled by the
inductive type `JVal`; Python dicts are association lists
`List (String × JVal)` (Python dict keys are unique, so iterating over
`d.keys()` and indexing is the same as iterating over the pairs).
Python `None` and JSON `null` are both `JVal.null`; Python `==` on parsed
JSON is the deep equality `jeqb`.
A Python exception (AttributeError / KeyError / TypeError / IndexError)
escaping a function is modelled as the value `none` of an `Option` result.
Network writes performed through `Wiremock.update_mapping` are collected in a
list of `(id, mapping)` pairs; in the model every write succeeds.
-/

set_option autoImplicit false

namespace ChaosWM

/-- JSON-like values handled by the driver.  `null` doubles as Python `None`. -/
inductive JVal where
  | null : JVal
  | bool : Bool → JVal
  | num : Int → JVal
  | str : String → JVal
  | arr : List JVal → JVal
  | obj : List (String × JVal) → JVal
deriving Repr

mutual

/-- Deep (structural) equality of values, Python's `==` on parsed JSON. -/
def jeqb : JVal → JVal → Bool
  | .null, .null => true
  | .bool a, .bool b => a == b
  | .num a, .num b => a == b
  | .str a, .str b => a == b
  | .arr xs, .arr ys => jeqbL xs ys
  | .obj xs, .obj ys => jeqbO xs ys
  | _, _ => false

/-- Deep equality, list case. -/
def jeqbL : List JVal → List JVal → Bool
  | [], [] => true
  | x :: xs, y :: ys => jeqb x y && jeqbL xs ys
  | _, _ => false

/-- Deep equality, object-fields case. -/
def jeqbO : List (String × JVal) → List (String × JVal) → Bool
  | [], [] => true
  | (k, x) :: xs, (k', y) :: ys => k == k' && jeqb x y && jeqbO xs ys
  | _, _ => false

end

/-- Python `d.get(k)` restricted to the found case: `some v` when the key is
present, `none` when absent (where `d[k]` would raise `KeyError`). -/
def pyIndex (d : List (String × JVal)) (k : String) : Option JVal :=
  (d.find? (fun p => p.1 == k)).map Prod.snd

/-- Python `d.get(k)`: the value bound to `k`, or `None` (`JVal.null`) when the
key is absent. -/
def pyGet (d : List (String × JVal)) (k : String) : JVal :=
  (pyIndex d k).getD JVal.null

/-- Python `d.keys()`: the (unique) keys of a dict. -/
def dictKeys (d : List (String × JVal)) : List String :=
  (d.map Prod.fst).dedup

/-- Python `d[k] = v`: replace the binding of `k` in place, or append it. -/
def setField : List (String × JVal) → String → JVal → List (String × JVal)
  | [], k, v => [(k, v)]
  | (k', v') :: rest, k, v =>
    if k' = k then (k, v) :: rest else (k', v') :: setField rest k v

/-- The fields of an object value (`[]` for non-objects); used only to state
theorems about values already known to be objects. -/
def objFields : JVal → List (String × JVal)
  | JVal.obj fs => fs
  | _ => []

/-- The `request` block of a mapping, as a dict. -/
def requestFields (m : JVal) : List (String × JVal) :=
  objFields (pyGet (objFields m) "request")

/-- The `response` block of a mapping, as a dict. -/
def responseFields (m : JVal) : List (String × JVal) :=
  objFields (pyGet (objFields m) "response")

/-- The `id` field of a mapping. -/
def idOf (m : JVal) : JVal :=
  pyGet (objFields m) "id"

/-- `Wiremock.strict_filter` (driver.py:116-125): the filter's key set must be
a subset of the node's key set (checked via the size of the intersection of
the key views) and every filter entry must equal the node's value at that key
(Python `!=`, i.e. deep equality). -/
def strict_filter (node fltr : List (String × JVal)) : Bool :=
  if (dictKeys node ∩ dictKeys fltr).length ≠ (dictKeys fltr).length then
    false
  else
    fltr.all (fun p => jeqb p.2 (pyGet node p.1))

mutual

/-- The per-key loop of `Wiremock.recursive_filter` (driver.py:133-145), over
the filter's entries (the filter comes first so the recursion is structural
in the filter).  Each entry's value is checked by `recValue` against the
node's value at that key; an exception (`none`) propagates, a failed check
returns `False`, a passed check moves to the next entry. -/
def recPairsFn : List (String × JVal) → List (String × JVal) → Option Bool
  | [], _ => some true
  | (k, f) :: rest, nf =>
    match recValue f (pyGet nf k) with
    | none => none
    | some false => some false
    | some true => recPairsFn rest nf

/-- One entry check of `Wiremock.recursive_filter` (driver.py:136-143):
a dict filter value `f` means `self.recursive_filter(comp, f)` — the node's
value must be a dict (otherwise `comp.keys()` raises, modelled as `none`),
the nested filter's keys must be a subset of its keys, and the nested entries
are checked in turn; a list filter value holds iff the node's value is a
member of the list (Python `in`, membership up to `==`); any other filter
value requires plain equality. -/
def recValue : JVal → JVal → Option Bool
  | JVal.obj ff, comp =>
    match comp with
    | JVal.obj cf =>
      if (dictKeys cf ∩ dictKeys ff).length ≠ (dictKeys ff).length then
        some false
      else recPairsFn ff cf
    | _ => none
  | JVal.arr xs, comp =>
    if xs.any (fun x => jeqb comp x) then some true else some false
  | f, comp => if jeqb f comp then some true else some false

end

/-- `Wiremock.recursive_filter` (driver.py:127-145).  The node must be a dict
(otherwise `node.keys()` raises, modelled as `none`); the filter's keys must
be a subset of the node's keys; then each filter entry is checked by the
per-key loop. -/
def recursive_filter (node : JVal) (fltr : List (String × JVal)) : Option Bool :=
  match node with
  | JVal.obj nf =>
    if (dictKeys nf ∩ dictKeys fltr).length ≠ (dictKeys fltr).length then
      some false
    else recPairsFn fltr nf
  | _ => none

/-- The per-mapping test of `Wiremock.filter_mappings` (driver.py:100-105):
in strict mode the mapping's `request` value is fetched with `.get` and fed to
`strict_filter` (a missing or non-dict `request`, or a non-dict mapping,
raises — `none`); in non-strict mode `recursive_filter` is applied to the
whole mapping. -/
def matchesOf (strict : Bool) (fltr : List (String × JVal)) (m : JVal) : Option Bool :=
  if strict then
    match m with
    | JVal.obj mf =>
      match pyGet mf "request" with
      | JVal.obj rf => some (strict_filter rf fltr)
      | _ => none
    | _ => none
  else
    recursive_filter m fltr

/-- The accumulation loop of `Wiremock.filter_mappings` (driver.py:98-114),
generic in the per-mapping test: matching mappings are appended in order and
counted; after each iteration the loop breaks once `limit > 0` matches have
been collected. -/
def fmLoop (matcher : JVal → Option Bool) (limit : Nat) :
    List JVal → List JVal → Nat → Option (List JVal)
  | [], acc, _ => some acc
  | m :: rest, acc, count =>
    match matcher m with
    | none => none
    | some b =>
      let acc' := if b then acc ++ [m] else acc
      let count' := if b then count + 1 else count
      if 0 < limit ∧ limit ≤ count' then some acc'
      else fmLoop matcher limit rest acc' count'

/-- `Wiremock.filter_mappings` (driver.py:93-114), with the server's mapping
list passed explicitly in place of the `self.mappings()` fetch. -/
def filter_mappings (mappings : List JVal) (fltr : List (String × JVal))
    (strict : Bool) (limit : Nat) : Option (List JVal) :=
  fmLoop (matchesOf strict fltr) limit mappings [] 0

/-- `Wiremock.filter_mapping` (driver.py:89-91): filter with `limit=1`, then
return `matching_mappings[1]` if the match list is non-empty (an out-of-range
index raises IndexError, modelled as `none`), else Python `None`. -/
def filter_mapping (mappings : List JVal) (fltr : List (String × JVal))
    (strict : Bool) : Option (Option JVal) :=
  match filter_mappings mappings fltr strict 1 with
  | none => none
  | some ms => if 0 < ms.length then (ms[1]?).map some else some none

/-- Modelled from the spec (§4.2 step 3, claim C4): the per-mapping test as
the spec states it, evaluating the chosen predicate against the mapping's
`request` sub-structure in both modes. -/
def matchesOfSpec (strict : Bool) (fltr : List (String × JVal)) (m : JVal) : Option Bool :=
  match m with
  | JVal.obj mf =>
    match pyGet mf "request" with
    | JVal.obj rf =>
      if strict then some (strict_filter rf fltr)
      else recursive_filter (JVal.obj rf) fltr
    | _ => none
  | _ => none

/-- Modelled from the spec: `filter_mappings` as claim C4 states it (same
collection loop, per-mapping test applied to the `request` block). -/
def filter_mappings_c4spec (mappings : List JVal) (fltr : List (String × JVal))
    (strict : Bool) (limit : Nat) : Option (List JVal) :=
  fmLoop (matchesOfSpec strict fltr) limit mappings [] 0

/-- `AVAILABLE_FAULTS` (driver.py:21-26). -/
def AVAILABLE_FAULTS : List String :=
  ["EMPTY_RESPONSE", "MALFORMED_RESPONSE_CHUNK", "RANDOM_DATA_THEN_CLOSE",
   "CONNECTION_RESET_BY_PEER"]

/-- The loop of `Wiremock.update_fault` (driver.py:210-222): for each mapping,
read `mapping["id"]`, set `mapping["response"]["fault"]` (a missing `id`, a
missing or non-dict `response`, or a non-dict mapping raises — `none`), then
write the mapping back; in the model every write succeeds, so every processed
id is collected.  Returns (result, write calls). -/
def updateFaultLoop (fault : String) :
    List JVal → List JVal → List (JVal × JVal) → Option (List JVal) × List (JVal × JVal)
  | [], ids, writes => (some ids, writes)
  | m :: rest, ids, writes =>
    match m with
    | JVal.obj mf =>
      match pyIndex mf "id", pyIndex mf "response" with
      | some id, some (JVal.obj rf) =>
        let m' := JVal.obj (setField mf "response"
          (JVal.obj (setField rf "fault" (JVal.str fault))))
        updateFaultLoop fault rest (ids ++ [id]) (writes ++ [(id, m')])
      | _, _ => (none, writes)
    | _ => (none, writes)

/-- `Wiremock.update_fault` (driver.py:196-222): the mappings argument is a
list by construction, so the isinstance guard passes; a fault outside
`AVAILABLE_FAULTS` aborts with Python `None` before any write. -/
def update_fault (mappings : List JVal) (fault : String) :
    Option (List JVal) × List (JVal × JVal) :=
  if fault ∈ AVAILABLE_FAULTS then updateFaultLoop fault mappings [] []
  else (none, [])

/-- Python truthiness of an optional string (`None` and `""` are falsy). -/
def pyTruthyStr : Option String → Bool
  | none => false
  | some s => !(s == "")

/-- The loop of `Wiremock.update_status_code_and_body` (driver.py:247-265):
for each mapping, read `mapping["id"]`, set `response["status"]` to the
status-code string, then set exactly one of `bodyFileName`/`body` (nulling
the other) when one was supplied, and write the mapping back; in the model
every write succeeds.  Returns (result, write calls). -/
def updateStatusLoop (status_code : String) (body body_file_name : Option String) :
    List JVal → List JVal → List (JVal × JVal) → Option (List JVal) × List (JVal × JVal)
  | [], ids, writes => (some ids, writes)
  | m :: rest, ids, writes =>
    match m with
    | JVal.obj mf =>
      match pyIndex mf "id", pyIndex mf "response" with
      | some id, some (JVal.obj rf) =>
        let rf1 := setField rf "status" (JVal.str status_code)
        let rf2 :=
          if pyTruthyStr body_file_name then
            setField (setField rf1 "bodyFileName" (JVal.str (body_file_name.getD "")))
              "body" JVal.null
          else if pyTruthyStr body then
            setField (setField rf1 "bodyFileName" JVal.null)
              "body" (JVal.str (body.getD ""))
          else rf1
        let m' := JVal.obj (setField mf "response" (JVal.obj rf2))
        updateStatusLoop status_code body body_file_name rest
          (ids ++ [id]) (writes ++ [(id, m')])
      | _, _ => (none, writes)
    | _ => (none, writes)

/-- All-digit parse of a non-empty character list (helper for `pyInt?`). -/
def parseNatDigits (cs : List Char) : Option Nat :=
  if cs.isEmpty then none
  else cs.foldl (fun acc c =>
    match acc with
    | none => none
    | some n => if c.isDigit then some (n * 10 + (c.toNat - '0'.toNat)) else none)
    (some 0)

/-- Python `int(s)` on a plain decimal string: an optional sign followed by
one or more digits; anything else raises ValueError (`none`). -/
def pyInt? (s : String) : Option Int :=
  match s.data with
  | '-' :: rest => (parseNatDigits rest).map (fun n => -(n : Int))
  | '+' :: rest => (parseNatDigits rest).map (fun n => (n : Int))
  | cs => (parseNatDigits cs).map (fun n => (n : Int))

/-- `Wiremock.update_status_code_and_body` (driver.py:224-265): the status
code string is parsed as an integer (`int(status_code)`, modelled by
`pyInt?`; a parse failure is caught) and must lie in [100, 599]; otherwise
the call aborts with Python `None` and no write. -/
def update_status_code_and_body (mappings : List JVal) (status_code : String)
    (body body_file_name : Option String) :
    Option (List JVal) × List (JVal × JVal) :=
  match pyInt? status_code with
  | none => (none, [])
  | some n =>
    if n < 100 ∨ 599 < n then (none, [])
    else updateStatusLoop status_code body body_file_name mappings [] []

/-- The loop of `Wiremock.fixed_delay` (driver.py:323-331): for each mapping,
set `response["fixedDelayMilliseconds"]` to the delay and
`response["delayDistribution"]` to Python `None` (`null`), then write the
mapping back (reading `m["id"]`); in the model every write succeeds, so every
id is collected.  Returns (result, write calls). -/
def fixedDelayLoop (d : JVal) :
    List JVal → List JVal → List (JVal × JVal) → Option (List JVal) × List (JVal × JVal)
  | [], ids, writes => (some ids, writes)
  | m :: rest, ids, writes =>
    match m with
    | JVal.obj mf =>
      match pyIndex mf "response" with
      | some (JVal.obj rf) =>
        let rf' := setField (setField rf "fixedDelayMilliseconds" d)
          "delayDistribution" JVal.null
        let mf' := setField mf "response" (JVal.obj rf')
        match pyIndex mf' "id" with
        | some id => fixedDelayLoop d rest (ids ++ [id]) (writes ++ [(id, JVal.obj mf')])
        | none => (none, writes)
      | _ => (none, writes)
    | _ => (none, writes)

/-- `Wiremock.fixed_delay` (driver.py:316-331). -/
def fixed_delay (mappings : List JVal) (fixedDelayMilliseconds : Int) :
    Option (List JVal) × List (JVal × JVal) :=
  fixedDelayLoop (JVal.num fixedDelayMilliseconds) mappings [] []

/-- Outcome of `actions._filter_mappings` (actions.py:30-43): either the
ValueError raised before any driver call, or a description of the single
driver lookup that would be performed (no lookup happens before the checks). -/
inductive FilterOutcome where
  | invalid : FilterOutcome
  | byRequest : JVal → FilterOutcome
  | byMetadata : JVal → FilterOutcome
deriving Repr

/-- `actions._filter_mappings` (actions.py:30-43).  The source's
`if not filter:` guard tests the Python builtin `filter` (always truthy), not
the parameter `f`, so it never raises and is omitted.  A filter holding both
`request` and `metadata` keys raises ValueError before any driver call. -/
def actions_filter_mappings (f : List (String × JVal)) : FilterOutcome :=
  if "request" ∈ dictKeys f ∧ "metadata" ∈ dictKeys f then
    FilterOutcome.invalid
  else if "request" ∈ dictKeys f then
    FilterOutcome.byRequest (pyGet f "request")
  else if "metadata" ∈ dictKeys f then
    FilterOutcome.byMetadata (pyGet f "metadata")
  else
    FilterOutcome.byRequest (JVal.obj f)

/-- `actions.update_mappings_status_code` (actions.py:90-113).
`check_configuration`/`get_wm_params` live in `chaoswm/utils.py`, which is
absent from the sources; modelled from the spec as a boolean `config_ok`.
The local `mappings_to_update` is initialised to Python `None` (not `[]`):
with an empty filter the final `len(mappings_to_update)` raises TypeError,
and with a non-empty filter the loop raises on its first iteration
(`w.mapping_by_request` is not defined on the driver, and `None.append`
would raise as well) — both modelled as `none`.  No write call is ever
reached.  Returns (result, write calls). -/
def update_mappings_status_code (config_ok : Bool) (status_code : String)
    (fltr : List JVal) : Option (List JVal) × List (JVal × JVal) :=
  if !config_ok then (some [], [])
  else if status_code == "" then (some [], [])
  else
    match fltr with
    | [] => (none, [])
    | _ :: _ => (none, [])

/-- A mapping shaped as the write loops expect: a dict with an `id` field and
a dict `response` field (anything else makes the Python loops raise). -/
def goodMapping : JVal → Bool
  | JVal.obj mf =>
    match pyIndex mf "id", pyIndex mf "response" with
    | some _, some (JVal.obj _) => true
    | _, _ => false
  | _ => false

/-- Concrete mapping used by the witnesses: one stub with a `GET /x` request
and a plain 200 response. -/
def sampleMapping : JVal :=
  JVal.obj [("id", JVal.num 1),
            ("request", JVal.obj [("method", JVal.str "GET"), ("url", JVal.str "/x")]),
            ("response", JVal.obj [("status", JVal.num 200)])]

/-- The mapping written by
`update_status_code_and_body [sampleMapping] "404" (some "B") none`. -/
def sampleMapping404 : JVal :=
  JVal.obj [("id", JVal.num 1),
            ("request", JVal.obj [("method", JVal.str "GET"), ("url", JVal.str "/x")]),
            ("response", JVal.obj [("status", JVal.str "404"),
                                   ("bodyFileName", JVal.null),
                                   ("body", JVal.str "B")])]

/-- The mapping written by `fixed_delay [sampleMapping] 300`. -/
def sampleMappingDelayed : JVal :=
  JVal.obj [("id", JVal.num 1),
            ("request", JVal.obj [("method", JVal.str "GET"), ("url", JVal.str "/x")]),
            ("response", JVal.obj [("status", JVal.num 200),
                                   ("fixedDelayMilliseconds", JVal.num 300),
                                   ("delayDistribution", JVal.null)])]

/-! ## Helper lemmas -/

mutual

lemma jeqb_iff : ∀ a b : JVal, jeqb a b = true ↔ a = b
  | a, b => by
    cases a <;> cases b <;> simp_all [jeqb, jeqbL_iff, jeqbO_iff]

lemma jeqbL_iff : ∀ xs ys : List JVal, jeqbL xs ys = true ↔ xs = ys
  | xs, ys => by
    cases xs <;> cases ys <;> simp_all [jeqbL, jeqb_iff, jeqbL_iff]

lemma jeqbO_iff : ∀ xs ys : List (String × JVal), jeqbO xs ys = true ↔ xs = ys
  | xs, ys => by
    cases xs <;> cases ys <;> simp_all [jeqbO, jeqb_iff, jeqbO_iff, Prod.ext_iff]

end

lemma inter_length_eq_iff {A B : List String} (hA : A.Nodup) (hB : B.Nodup) :
    ((A ∩ B).length = B.length) ↔ ∀ b ∈ B, b ∈ A := by
  have hI : (A ∩ B).Nodup := by
    rw [List.inter_def]; exact hA.filter _
  constructor
  · intro hlen b hb
    have hsub : (A ∩ B).toFinset ⊆ B.toFinset := by
      intro x hx
      simp only [List.mem_toFinset, List.mem_inter_iff] at hx ⊢
      exact hx.2
    have hcard : B.toFinset.card ≤ (A ∩ B).toFinset.card := by
      rw [List.toFinset_card_of_nodup hI, List.toFinset_card_of_nodup hB, hlen]
    have heq := Finset.eq_of_subset_of_card_le hsub hcard
    have hbmem : b ∈ (A ∩ B).toFinset := by
      rw [heq]; simpa using hb
    simp only [List.mem_toFinset, List.mem_inter_iff] at hbmem
    exact hbmem.1
  · intro hBA
    have hperm : List.Perm (A ∩ B) B := by
      refine (List.perm_ext_iff_of_nodup hI hB).2 (fun x => ?_)
      simp only [List.mem_inter_iff]
      exact ⟨fun h => h.2, fun h => ⟨hBA x h, h⟩⟩
    exact hperm.length_eq

lemma dictKeys_nodup (d : List (String × JVal)) : (dictKeys d).Nodup :=
  List.nodup_dedup _

lemma mem_dictKeys {d : List (String × JVal)} {k : String} :
    k ∈ dictKeys d ↔ ∃ p ∈ d, p.1 = k := by
  simp only [dictKeys, List.mem_dedup, List.mem_map]

lemma subset_check_iff (node fltr : List (String × JVal)) :
    ((dictKeys node ∩ dictKeys fltr).length = (dictKeys fltr).length) ↔
      ∀ k ∈ dictKeys fltr, k ∈ dictKeys node :=
  inter_length_eq_iff (dictKeys_nodup node) (dictKeys_nodup fltr)

lemma strict_filter_eq_true_iff (node fltr : List (String × JVal)) :
    strict_filter node fltr = true ↔
      ∀ p ∈ fltr, p.1 ∈ dictKeys node ∧ pyGet node p.1 = p.2 := by
  unfold strict_filter
  by_cases hsub : (dictKeys node ∩ dictKeys fltr).length = (dictKeys fltr).length
  · rw [if_neg (by simpa using hsub)]
    have hks := (subset_check_iff node fltr).1 hsub
    constructor
    · intro hall p hp
      have hk : p.1 ∈ dictKeys fltr := mem_dictKeys.2 ⟨p, hp, rfl⟩
      have := List.all_eq_true.1 hall p hp
      exact ⟨hks _ hk, ((jeqb_iff _ _).1 this).symm⟩
    · intro h
      exact List.all_eq_true.2 (fun p hp => (jeqb_iff _ _).2 ((h p hp).2.symm))
  · rw [if_pos (by simpa using hsub)]
    constructor
    · intro h; exact absurd h (by simp)
    · intro h
      exfalso
      refine hsub ((subset_check_iff node fltr).2 (fun k hk => ?_))
      obtain ⟨p, hp, rfl⟩ := mem_dictKeys.1 hk
      exact (h p hp).1

lemma fmLoop_limit_zero (matcher : JVal → Option Bool) (p : JVal → Bool) :
    ∀ (ms acc : List JVal) (count : Nat),
      (∀ m ∈ ms, matcher m = some (p m)) →
      fmLoop matcher 0 ms acc count = some (acc ++ ms.filter p) := by
  intro ms
  induction ms with
  | nil => intro acc count _; simp [fmLoop]
  | cons m rest ih =>
    intro acc count h
    have hm := h m (List.mem_cons_self m rest)
    simp only [fmLoop, hm]
    rw [if_neg (by simp)]
    by_cases hb : p m
    · rw [ih _ _ (fun x hx => h x (List.mem_cons_of_mem m hx))]
      simp [hb, List.filter_cons]
    · rw [ih _ _ (fun x hx => h x (List.mem_cons_of_mem m hx))]
      simp [hb, List.filter_cons]

lemma pyIndex_nil (k : String) : pyIndex [] k = none := rfl

lemma pyIndex_cons (k₀ : String) (v₀ : JVal) (rest : List (String × JVal))
    (k : String) :
    pyIndex ((k₀, v₀) :: rest) k = if k₀ = k then some v₀ else pyIndex rest k := by
  by_cases h : k₀ = k
  · rw [if_pos h]
    unfold pyIndex
    rw [List.find?_cons_of_pos _ (by simpa using h)]
    rfl
  · rw [if_neg h]
    unfold pyIndex
    rw [List.find?_cons_of_neg _ (by simpa using h)]

lemma pyIndex_setField_self (d : List (String × JVal)) (k : String) (v : JVal) :
    pyIndex (setField d k v) k = some v := by
  induction d with
  | nil => simp [setField, pyIndex_cons]
  | cons p rest ih =>
    obtain ⟨k', v'⟩ := p
    by_cases h : k' = k
    · subst h; simp [setField, pyIndex_cons]
    · simp [setField, if_neg h, pyIndex_cons, h, ih]

lemma pyIndex_setField_ne (d : List (String × JVal)) (k k' : String) (v : JVal)
    (h : k' ≠ k) : pyIndex (setField d k' v) k = pyIndex d k := by
  induction d with
  | nil => simp [setField, pyIndex_cons, pyIndex_nil, h]
  | cons p rest ih =>
    obtain ⟨k₀, v₀⟩ := p
    by_cases h0 : k₀ = k'
    · subst h0
      simp [setField, pyIndex_cons, h]
    · simp [setField, if_neg h0, pyIndex_cons, ih]

lemma pyGet_setField_self (d : List (String × JVal)) (k : String) (v : JVal) :
    pyGet (setField d k v) k = v := by
  simp [pyGet, pyIndex_setField_self]

lemma pyGet_setField_ne (d : List (String × JVal)) (k k' : String) (v : JVal)
    (h : k' ≠ k) : pyGet (setField d k' v) k = pyGet d k := by
  simp [pyGet, pyIndex_setField_ne _ _ _ _ h]

lemma pyIndex_isSome_iff {d : List (String × JVal)} {k : String} :
    (pyIndex d k).isSome = true ↔ k ∈ dictKeys d := by
  unfold pyIndex
  cases hfind : List.find? (fun p => p.1 == k) d with
  | none =>
    simp only [Option.map_none', Option.isSome_none]
    constructor
    · intro h; exact absurd h (by simp)
    · intro hk
      obtain ⟨p, hp, rfl⟩ := mem_dictKeys.1 hk
      have := List.find?_eq_none.1 hfind p hp
      simp at this
  | some p =>
    simp only [Option.map_some', Option.isSome_some, true_iff]
    have hpk := List.find?_some hfind
    have hmem := List.mem_of_find?_eq_some hfind
    exact mem_dictKeys.2 ⟨p, hmem, by simpa using hpk⟩

lemma mem_dictKeys_setField_self (d : List (String × JVal)) (k : String) (v : JVal) :
    k ∈ dictKeys (setField d k v) := by
  rw [← pyIndex_isSome_iff, pyIndex_setField_self]
  rfl

lemma matchesOf_strict_eq {fltr : List (String × JVal)} {m : JVal}
    (h : (matchesOf true fltr m).isSome = true) :
    matchesOf true fltr m = some (strict_filter (requestFields m) fltr) := by
  cases m with
  | obj mf =>
    simp only [matchesOf, if_true] at h ⊢
    cases hreq : pyGet mf "request" with
    | obj rf => simp [requestFields, objFields, hreq]
    | null => rw [hreq] at h; simp at h
    | bool b => rw [hreq] at h; simp at h
    | num n => rw [hreq] at h; simp at h
    | str st => rw [hreq] at h; simp at h
    | arr xs => rw [hreq] at h; simp at h
  | null => simp [matchesOf] at h
  | bool b => simp [matchesOf] at h
  | num n => simp [matchesOf] at h
  | str st => simp [matchesOf] at h
  | arr xs => simp [matchesOf] at h

lemma recursive_filter_obj (nf fltr : List (String × JVal)) :
    recursive_filter (JVal.obj nf) fltr =
      if (dictKeys nf ∩ dictKeys fltr).length ≠ (dictKeys fltr).length then
        some false
      else recPairsFn fltr nf := rfl

lemma recursive_filter_not_obj {m : JVal} (h : ∀ nf, m ≠ JVal.obj nf)
    (fltr : List (String × JVal)) : recursive_filter m fltr = none := by
  cases m with
  | obj nf => exact absurd rfl (h nf)
  | null => rfl
  | bool b => rfl
  | num n => rfl
  | str s => rfl
  | arr xs => rfl

lemma recPairsFn_nil (nf : List (String × JVal)) :
    recPairsFn [] nf = some true := rfl

lemma recPairsFn_arr (nf : List (String × JVal)) (k : String)
    (xs : List JVal) (rest : List (String × JVal)) :
    recPairsFn ((k, JVal.arr xs) :: rest) nf =
      if xs.any (fun x => jeqb (pyGet nf k) x) then recPairsFn rest nf
      else some false := by
  by_cases h : xs.any (fun x => jeqb (pyGet nf k) x)
  · simp [recPairsFn, recValue, h]
  · simp [recPairsFn, recValue, h]

lemma subset_check_singleton {nf : List (String × JVal)} {k : String} (v : JVal)
    (hk : k ∈ dictKeys nf) :
    (dictKeys nf ∩ dictKeys [(k, v)]).length = (dictKeys [(k, v)]).length := by
  refine (subset_check_iff nf [(k, v)]).2 ?_
  intro b hb
  have hbk : b = k := by simpa [dictKeys] using hb
  subst hbk
  exact hk

lemma matchesOf_false_arr {k : String} {xs : List JVal} {m : JVal}
    (hm : ∃ mf, m = JVal.obj mf ∧ k ∈ dictKeys mf) :
    matchesOf false [(k, JVal.arr xs)] m =
      some (xs.any (fun x => jeqb (pyGet (objFields m) k) x)) := by
  obtain ⟨mf, rfl, hk⟩ := hm
  show recursive_filter (JVal.obj mf) [(k, JVal.arr xs)] =
    some (xs.any (fun x => jeqb (pyGet mf k) x))
  rw [recursive_filter_obj,
    if_neg (by simpa using subset_check_singleton (JVal.arr xs) hk),
    recPairsFn_arr, recPairsFn_nil]
  cases hany : xs.any (fun x => jeqb (pyGet mf k) x) <;> simp

lemma any_jeqb_iff_mem (v : JVal) (xs : List JVal) :
    xs.any (fun x => jeqb v x) = true ↔ v ∈ xs := by
  rw [List.any_eq_true]
  constructor
  · rintro ⟨x, hx, heq⟩
    obtain rfl := (jeqb_iff v x).1 heq
    exact hx
  · intro hv
    exact ⟨v, hv, (jeqb_iff _ _).2 rfl⟩

lemma goodMapping_obj {mf : List (String × JVal)}
    (h : goodMapping (JVal.obj mf) = true) :
    ∃ i rf, pyIndex mf "id" = some i ∧ pyIndex mf "response" = some (JVal.obj rf) := by
  cases hid : pyIndex mf "id" with
  | none => rw [goodMapping, hid] at h; simp at h
  | some i =>
    cases hresp : pyIndex mf "response" with
    | none => rw [goodMapping, hid, hresp] at h; simp at h
    | some v =>
      cases v with
      | obj rf => exact ⟨i, rf, rfl, rfl⟩
      | null => rw [goodMapping, hid, hresp] at h; simp at h
      | bool b => rw [goodMapping, hid, hresp] at h; simp at h
      | num n => rw [goodMapping, hid, hresp] at h; simp at h
      | str s => rw [goodMapping, hid, hresp] at h; simp at h
      | arr xs => rw [goodMapping, hid, hresp] at h; simp at h

lemma updateStatusLoop_spec (sc s : String) (hs : s ≠ "") :
    ∀ (ms ids : List JVal) (writes : List (JVal × JVal)),
      (∀ m ∈ ms, goodMapping m = true) →
      (updateStatusLoop sc (some s) none ms ids writes).1 =
          some (ids ++ ms.map idOf) ∧
      (updateStatusLoop sc (some s) none ms ids writes).2.length =
          writes.length + ms.length ∧
      ∀ w ∈ (updateStatusLoop sc (some s) none ms ids writes).2,
        w ∈ writes ∨
          (pyGet (responseFields w.2) "status" = JVal.str sc ∧
           pyGet (responseFields w.2) "body" = JVal.str s ∧
           pyGet (responseFields w.2) "bodyFileName" = JVal.null) := by
  intro ms
  induction ms with
  | nil =>
    intro ids writes _
    exact ⟨by simp [updateStatusLoop], by simp [updateStatusLoop],
      fun w hw => Or.inl hw⟩
  | cons m rest ih =>
    intro ids writes h
    have hm := h m (List.mem_cons_self m rest)
    cases m with
    | obj mf =>
      obtain ⟨i, rf, hid, hresp⟩ := goodMapping_obj hm
      have hps : pyTruthyStr (some s) = true := by
        simp [pyTruthyStr, hs]
      have hpn : pyTruthyStr none = false := rfl
      simp only [updateStatusLoop, hid, hresp, hps, hpn, Bool.false_eq_true,
        if_false, if_true, Option.getD_some]
      have hrec := ih (ids ++ [i])
        (writes ++ [(i, JVal.obj (setField mf "response"
          (JVal.obj (setField (setField (setField rf "status" (JVal.str sc))
            "bodyFileName" JVal.null) "body" (JVal.str s)))))])
        (fun x hx => h x (List.mem_cons_of_mem _ hx))
      refine ⟨?_, ?_, ?_⟩
      · rw [hrec.1]
        have hidOf : idOf (JVal.obj mf) = i := by
          simp [idOf, objFields, pyGet, hid]
        simp [hidOf]
      · rw [hrec.2.1]
        simp only [List.length_append, List.length_cons, List.length_nil]
        omega
      · intro w hw
        rcases hrec.2.2 w hw with hw' | hP
        · rcases List.mem_append.1 hw' with hw'' | hw''
          · exact Or.inl hw''
          · right
            have hwEq := List.mem_singleton.1 hw''
            subst hwEq
            have hrespFields :
                responseFields (JVal.obj (setField mf "response"
                  (JVal.obj (setField (setField (setField rf "status" (JVal.str sc))
                    "bodyFileName" JVal.null) "body" (JVal.str s))))) =
                setField (setField (setField rf "status" (JVal.str sc))
                  "bodyFileName" JVal.null) "body" (JVal.str s) := by
              simp [responseFields, objFields, pyGet_setField_self]
            rw [hrespFields]
            refine ⟨?_, ?_, ?_⟩
            · rw [pyGet_setField_ne _ _ _ _ (by decide),
                pyGet_setField_ne _ _ _ _ (by decide),
                pyGet_setField_self]
            · rw [pyGet_setField_self]
            · rw [pyGet_setField_ne _ _ _ _ (by decide),
                pyGet_setField_self]
        · exact Or.inr hP
    | null => simp [goodMapping] at hm
    | bool b => simp [goodMapping] at hm
    | num n => simp [goodMapping] at hm
    | str st => simp [goodMapping] at hm
    | arr xs => simp [goodMapping] at hm

lemma fixedDelayLoop_spec (d : Int) :
    ∀ (ms ids : List JVal) (writes : List (JVal × JVal)),
      (∀ m ∈ ms, goodMapping m = true) →
      (fixedDelayLoop (JVal.num d) ms ids writes).1 =
          some (ids ++ ms.map idOf) ∧
      (fixedDelayLoop (JVal.num d) ms ids writes).2.length =
          writes.length + ms.length ∧
      ∀ w ∈ (fixedDelayLoop (JVal.num d) ms ids writes).2,
        w ∈ writes ∨
          (pyGet (responseFields w.2) "fixedDelayMilliseconds" = JVal.num d ∧
           pyGet (responseFields w.2) "delayDistribution" = JVal.null ∧
           "delayDistribution" ∈ dictKeys (responseFields w.2)) := by
  intro ms
  induction ms with
  | nil =>
    intro ids writes _
    exact ⟨by simp [fixedDelayLoop], by simp [fixedDelayLoop],
      fun w hw => Or.inl hw⟩
  | cons m rest ih =>
    intro ids writes h
    have hm := h m (List.mem_cons_self m rest)
    cases m with
    | obj mf =>
      obtain ⟨i, rf, hid, hresp⟩ := goodMapping_obj hm
      have hid' : pyIndex (setField mf "response"
          (JVal.obj (setField (setField rf "fixedDelayMilliseconds" (JVal.num d))
            "delayDistribution" JVal.null))) "id" = some i := by
        rw [pyIndex_setField_ne _ _ _ _ (by decide)]
        exact hid
      simp only [fixedDelayLoop, hresp, hid']
      have hrec := ih (ids ++ [i])
        (writes ++ [(i, JVal.obj (setField mf "response"
          (JVal.obj (setField (setField rf "fixedDelayMilliseconds" (JVal.num d))
            "delayDistribution" JVal.null))))])
        (fun x hx => h x (List.mem_cons_of_mem _ hx))
      refine ⟨?_, ?_, ?_⟩
      · rw [hrec.1]
        have hidOf : idOf (JVal.obj mf) = i := by
          simp [idOf, objFields, pyGet, hid]
        simp [hidOf]
      · rw [hrec.2.1]
        simp only [List.length_append, List.length_cons, List.length_nil]
        omega
      · intro w hw
        rcases hrec.2.2 w hw with hw' | hP
        · rcases List.mem_append.1 hw' with hw'' | hw''
          · exact Or.inl hw''
          · right
            have hwEq := List.mem_singleton.1 hw''
            subst hwEq
            have hrespFields :
                responseFields (JVal.obj (setField mf "response"
                  (JVal.obj (setField (setField rf "fixedDelayMilliseconds" (JVal.num d))
                    "delayDistribution" JVal.null)))) =
                setField (setField rf "fixedDelayMilliseconds" (JVal.num d))
                  "delayDistribution" JVal.null := by
              simp [responseFields, objFields, pyGet_setField_self]
            rw [hrespFields]
            refine ⟨?_, ?_, ?_⟩
            · rw [pyGet_setField_ne _ _ _ _ (by decide), pyGet_setField_self]
            · rw [pyGet_setField_self]
            · exact mem_dictKeys_setField_self _ _ _
        · exact Or.inr hP
    | null => simp [goodMapping] at hm
    | bool b => simp [goodMapping] at hm
    | num n => simp [goodMapping] at hm
    | str st => simp [goodMapping] at hm
    | arr xs => simp [goodMapping] at hm

/-! ## Claim theorems -/

/-- C1: `strict_filter node fltr` holds iff every key of the filter is
present in the node and the node's value there is deep-equal to the filter's
value; consequently strict `filter_mappings` (limit 0, i.e. no limit) keeps
exactly those mappings whose `request` block satisfies `strict_filter`. -/
theorem claim_C1_strict_filter (fltr node : List (String × JVal)) :
    (strict_filter node fltr = true ↔
      ∀ p ∈ fltr, p.1 ∈ dictKeys node ∧ pyGet node p.1 = p.2) ∧
    ∀ ms : List JVal, (∀ m ∈ ms, (matchesOf true fltr m).isSome = true) →
      filter_mappings ms fltr true 0 =
        some (ms.filter fun m => strict_filter (requestFields m) fltr) := by
  refine ⟨strict_filter_eq_true_iff node fltr, ?_⟩
  intro ms h
  unfold filter_mappings
  rw [fmLoop_limit_zero _ _ ms [] 0 (fun m hm => matchesOf_strict_eq (h m hm))]
  simp

/-- Witness for C1 at a concrete node, filter and server list. -/
theorem claim_C1_strict_filter_witness :
    strict_filter [("method", JVal.str "GET"), ("url", JVal.str "/x")]
        [("method", JVal.str "GET")] = true ∧
    filter_mappings [sampleMapping] [("method", JVal.str "GET")] true 0 =
      some [sampleMapping] := by
  constructor
  · refine (claim_C1_strict_filter [("method", JVal.str "GET")]
        [("method", JVal.str "GET"), ("url", JVal.str "/x")]).1.2 ?_
    intro p hp
    rw [List.mem_singleton] at hp
    subst hp
    exact ⟨by decide, rfl⟩
  · have h := (claim_C1_strict_filter [("method", JVal.str "GET")] []).2
      [sampleMapping] (by decide)
    rw [h]
    rfl

/-- C2: with a sequence-valued filter entry `[(k, [a, b, c])]`, the recursive
predicate returns `True` iff the node's value at `k` is a member of the
sequence and `False` iff it is not (given `k` is among the node's keys);
consequently recursive filtering with such a filter keeps exactly the
mappings whose field at `k` is a member of the sequence. -/
theorem claim_C2_recursive_filter_sequence (nf : List (String × JVal)) (k : String)
    (xs : List JVal) (hk : k ∈ dictKeys nf) :
    (recursive_filter (JVal.obj nf) [(k, JVal.arr xs)] = some true ↔
      pyGet nf k ∈ xs) ∧
    (recursive_filter (JVal.obj nf) [(k, JVal.arr xs)] = some false ↔
      pyGet nf k ∉ xs) ∧
    ∀ ms : List JVal, (∀ m ∈ ms, ∃ mf, m = JVal.obj mf ∧ k ∈ dictKeys mf) →
      filter_mappings ms [(k, JVal.arr xs)] false 0 =
        some (ms.filter fun m => xs.any fun x => jeqb (pyGet (objFields m) k) x) := by
  have hfm : ∀ ms : List JVal,
      (∀ m ∈ ms, ∃ mf, m = JVal.obj mf ∧ k ∈ dictKeys mf) →
      filter_mappings ms [(k, JVal.arr xs)] false 0 =
        some (ms.filter fun m => xs.any fun x => jeqb (pyGet (objFields m) k) x) := by
    intro ms h
    unfold filter_mappings
    rw [fmLoop_limit_zero _ _ ms [] 0 (fun m hm => matchesOf_false_arr (h m hm))]
    simp
  rw [recursive_filter_obj,
    if_neg (by simpa using subset_check_singleton (JVal.arr xs) hk),
    recPairsFn_arr, recPairsFn_nil]
  by_cases hmem : pyGet nf k ∈ xs
  · rw [if_pos ((any_jeqb_iff_mem _ _).2 hmem)]
    exact ⟨⟨fun _ => hmem, fun _ => rfl⟩,
      ⟨fun hc => absurd (Option.some.inj hc) (by simp),
       fun hc => absurd hmem hc⟩, hfm⟩
  · have hany : ¬ (xs.any (fun x => jeqb (pyGet nf k) x) = true) :=
      fun hc => hmem ((any_jeqb_iff_mem _ _).1 hc)
    rw [if_neg hany]
    exact ⟨⟨fun hc => absurd (Option.some.inj hc) (by simp),
       fun hc => absurd hc hmem⟩,
      ⟨fun _ => hmem, fun _ => rfl⟩, hfm⟩

/-- Witness for C2: `GET` is a member of `["POST", "GET"]`, so the predicate
accepts; filtering keeps the sample mapping whose `id` is in `[1, 2]`. -/
theorem claim_C2_recursive_filter_sequence_witness :
    recursive_filter (JVal.obj [("method", JVal.str "GET")])
      [("method", JVal.arr [JVal.str "POST", JVal.str "GET"])] = some true ∧
    filter_mappings [sampleMapping] [("id", JVal.arr [JVal.num 1, JVal.num 2])]
      false 0 = some [sampleMapping] := by
  constructor
  · refine ((claim_C2_recursive_filter_sequence [("method", JVal.str "GET")]
        "method" [JVal.str "POST", JVal.str "GET"] (by decide)).1).2 ?_
    show JVal.str "GET" ∈ [JVal.str "POST", JVal.str "GET"]
    exact List.mem_cons_of_mem _ (List.mem_cons_self _ _)
  · have h := (claim_C2_recursive_filter_sequence (objFields sampleMapping)
      "id" [JVal.num 1, JVal.num 2] (by decide)).2.2 [sampleMapping]
      (fun m hm => by
        rw [List.mem_singleton] at hm
        subst hm
        exact ⟨objFields sampleMapping, rfl, by decide⟩)
    rw [h]
    rfl

/-- C3 (code bug, at the failing input): one mapping strictly matches and
`filter_mappings` with limit 1 returns the singleton match list, yet
`filter_mapping` evaluates `matching_mappings[1]`, which is out of bounds for
a one-element list and raises IndexError (`none`) instead of returning the
first match. -/
theorem claim_C3_filter_mapping_index_crash :
    filter_mappings [sampleMapping] [("method", JVal.str "GET")] true 1 =
      some [sampleMapping] ∧
    filter_mapping [sampleMapping] [("method", JVal.str "GET")] true = none :=
  ⟨rfl, rfl⟩

/-- C4 counterexample: in non-strict mode the code applies `recursive_filter`
to the whole mapping rather than to its `request` block, so a filter naming a
request field matches nothing, while the spec-modelled request-block variant
accepts the mapping (whose request block does satisfy the predicate). -/
theorem claim_C4_recursive_target_cex :
    filter_mappings [sampleMapping] [("method", JVal.str "GET")] false 0 =
      some [] ∧
    filter_mappings_c4spec [sampleMapping] [("method", JVal.str "GET")] false 0 =
      some [sampleMapping] ∧
    recursive_filter (JVal.obj (requestFields sampleMapping))
      [("method", JVal.str "GET")] = some true :=
  ⟨rfl, rfl, rfl⟩

/-- C4 (amended): in strict mode `filter_mappings` applies `strict_filter` to
each mapping's `request` block; in non-strict mode it applies
`recursive_filter` to the whole mapping object, not to the `request` block. -/
theorem claim_C4_filter_mappings_modes (ms : List JVal)
    (fltr : List (String × JVal)) :
    ((∀ m ∈ ms, (matchesOf true fltr m).isSome = true) →
      filter_mappings ms fltr true 0 =
        some (ms.filter fun m => strict_filter (requestFields m) fltr)) ∧
    ((∀ m ∈ ms, (recursive_filter m fltr).isSome = true) →
      filter_mappings ms fltr false 0 =
        some (ms.filter fun m => (recursive_filter m fltr).getD false)) := by
  constructor
  · intro h
    unfold filter_mappings
    rw [fmLoop_limit_zero _ _ ms [] 0 (fun m hm => matchesOf_strict_eq (h m hm))]
    simp
  · intro h
    unfold filter_mappings
    rw [fmLoop_limit_zero (matchesOf false fltr)
      (fun m => (recursive_filter m fltr).getD false) ms [] 0 ?_]
    · simp
    · intro m hm
      obtain ⟨b, hb⟩ := Option.isSome_iff_exists.mp (h m hm)
      show recursive_filter m fltr = some ((recursive_filter m fltr).getD false)
      rw [hb]
      rfl

/-- Witness for C4 (amended): a filter on the top-level `id` field is ignored
by strict mode (which looks at the `request` block) but matched by
non-strict mode (which looks at the whole mapping). -/
theorem claim_C4_filter_mappings_modes_witness :
    filter_mappings [sampleMapping] [("id", JVal.num 1)] true 0 = some [] ∧
    filter_mappings [sampleMapping] [("id", JVal.num 1)] false 0 =
      some [sampleMapping] := by
  constructor
  · have h := (claim_C4_filter_mappings_modes [sampleMapping]
      [("id", JVal.num 1)]).1 (by decide)
    rw [h]
    rfl
  · have h := (claim_C4_filter_mappings_modes [sampleMapping]
      [("id", JVal.num 1)]).2 (by decide)
    rw [h]
    rfl

/-- C5: an unparseable or out-of-range status code (e.g. "700") makes
`update_status_code_and_body` abort with Python `None` and zero writes;
with status "404" and a non-empty body string every mapping is written back
with `response.status = "404"`, `response.body` the string and
`response.bodyFileName` nulled, and the ids of all mappings are returned. -/
theorem claim_C5_update_status_code_and_body :
    (∀ (ms : List JVal) (body bfn : Option String) (sc : String),
      (pyInt? sc = none ∨ ∃ n, pyInt? sc = some n ∧ (n < 100 ∨ 599 < n)) →
      update_status_code_and_body ms sc body bfn = (none, [])) ∧
    (∀ (ms : List JVal) (s : String), s ≠ "" →
      (∀ m ∈ ms, goodMapping m = true) →
      (update_status_code_and_body ms "404" (some s) none).1 =
        some (ms.map idOf) ∧
      (update_status_code_and_body ms "404" (some s) none).2.length = ms.length ∧
      ∀ w ∈ (update_status_code_and_body ms "404" (some s) none).2,
        pyGet (responseFields w.2) "status" = JVal.str "404" ∧
        pyGet (responseFields w.2) "body" = JVal.str s ∧
        pyGet (responseFields w.2) "bodyFileName" = JVal.null) := by
  constructor
  · intro ms body bfn sc hbad
    rcases hbad with hnone | ⟨n, hn, hrange⟩
    · unfold update_status_code_and_body
      rw [hnone]
    · unfold update_status_code_and_body
      rw [hn]
      show (if n < 100 ∨ 599 < n then
          ((none : Option (List JVal)), ([] : List (JVal × JVal)))
        else updateStatusLoop sc body bfn ms [] []) = (none, [])
      rw [if_pos hrange]
  · intro ms s hs hgood
    have h := updateStatusLoop_spec "404" s hs ms [] [] hgood
    have hunfold : update_status_code_and_body ms "404" (some s) none =
        updateStatusLoop "404" (some s) none ms [] [] := rfl
    rw [hunfold]
    exact ⟨by rw [h.1]; simp, by rw [h.2.1]; simp,
      fun w hw => (h.2.2 w hw).resolve_left (by simp)⟩

/-- Witness for C5: "700" aborts with no write; the mapping written for
status "404" with body "B" carries the three mutated response fields. -/
theorem claim_C5_update_status_code_and_body_witness :
    update_status_code_and_body [sampleMapping] "700" (some "B") none =
      (none, []) ∧
    (pyGet (responseFields sampleMapping404) "status" = JVal.str "404" ∧
     pyGet (responseFields sampleMapping404) "body" = JVal.str "B" ∧
     pyGet (responseFields sampleMapping404) "bodyFileName" = JVal.null) := by
  constructor
  · exact claim_C5_update_status_code_and_body.1 [sampleMapping] (some "B") none
      "700" (Or.inr ⟨700, rfl, by norm_num⟩)
  · refine (claim_C5_update_status_code_and_body.2 [sampleMapping] "B"
      (by decide) (by decide)).2.2 (JVal.num 1, sampleMapping404) ?_
    show (JVal.num 1, sampleMapping404) ∈ [(JVal.num 1, sampleMapping404)]
    exact List.mem_cons_self _ _

/-- C6: a fault string outside `AVAILABLE_FAULTS` makes `update_fault` return
Python `None` with zero write calls — the fault kind is validated before any
network call, and no mapping is touched. -/
theorem claim_C6_update_fault_invalid (ms : List JVal) (fault : String)
    (h : fault ∉ AVAILABLE_FAULTS) :
    update_fault ms fault = (none, []) := by
  unfold update_fault
  rw [if_neg h]

/-- Witness for C6 with the fault string "NOT_A_FAULT". -/
theorem claim_C6_update_fault_invalid_witness :
    update_fault [sampleMapping] "NOT_A_FAULT" = (none, []) :=
  claim_C6_update_fault_invalid [sampleMapping] "NOT_A_FAULT" (by decide)

/-- C7: a filter description holding both `request` and `metadata` keys makes
`actions._filter_mappings` raise ValueError (InvalidFilter) before any
driver lookup, whatever the values bound to those keys. -/
theorem claim_C7_both_keys_invalid (f : List (String × JVal))
    (h1 : "request" ∈ dictKeys f) (h2 : "metadata" ∈ dictKeys f) :
    actions_filter_mappings f = FilterOutcome.invalid := by
  unfold actions_filter_mappings
  rw [if_pos ⟨h1, h2⟩]

/-- Witness for C7 at a concrete two-key filter description. -/
theorem claim_C7_both_keys_invalid_witness :
    actions_filter_mappings
      [("request", JVal.obj [("method", JVal.str "GET")]),
       ("metadata", JVal.obj [])] = FilterOutcome.invalid :=
  claim_C7_both_keys_invalid _ (by decide) (by decide)

/-- C8 (code bug, at the failing input): with a valid configuration, status
code "404" and an empty filter list, `update_mappings_status_code` raises
TypeError (`len(None)` on the `None`-initialised accumulator) instead of
returning the empty list; no write call is made. -/
theorem claim_C8_empty_filter_crash :
    update_mappings_status_code true "404" [] = (none, []) := rfl

/-- C9 counterexample: after `fixed_delay`, the written mapping's response
still contains the `delayDistribution` key — it is set to `null`, not
removed — contradicting "`response.delayDistribution` absent". -/
theorem claim_C9_delay_distribution_cex :
    fixed_delay [sampleMapping] 300 =
      (some [JVal.num 1], [(JVal.num 1, sampleMappingDelayed)]) ∧
    "delayDistribution" ∈ dictKeys (responseFields sampleMappingDelayed) ∧
    pyGet (responseFields sampleMappingDelayed) "delayDistribution" =
      JVal.null ∧
    pyGet (responseFields sampleMappingDelayed) "fixedDelayMilliseconds" =
      JVal.num 300 :=
  ⟨rfl, by decide, rfl, rfl⟩

/-- C9 (amended): `fixed_delay` writes every mapping back with
`response.fixedDelayMilliseconds` equal to the delay and
`response.delayDistribution` set to `null` (the key stays present, bound to
null), and returns the ids of all written mappings (every write succeeds in
the model). -/
theorem claim_C9_fixed_delay (ms : List JVal) (d : Int)
    (h : ∀ m ∈ ms, goodMapping m = true) :
    (fixed_delay ms d).1 = some (ms.map idOf) ∧
    (fixed_delay ms d).2.length = ms.length ∧
    ∀ w ∈ (fixed_delay ms d).2,
      pyGet (responseFields w.2) "fixedDelayMilliseconds" = JVal.num d ∧
      pyGet (responseFields w.2) "delayDistribution" = JVal.null ∧
      "delayDistribution" ∈ dictKeys (responseFields w.2) := by
  have hspec := fixedDelayLoop_spec d ms [] [] h
  unfold fixed_delay
  exact ⟨by rw [hspec.1]; simp, by rw [hspec.2.1]; simp,
    fun w hw => (hspec.2.2 w hw).resolve_left (by simp)⟩

/-- Witness for C9 (amended) on the sample server. -/
theorem claim_C9_fixed_delay_witness :
    (fixed_delay [sampleMapping] 300).1 = some [JVal.num 1] := by
  have h := (claim_C9_fixed_delay [sampleMapping] 300 (by decide)).1
  rw [h]
  rfl

/-- C10: the empty filter passes the strict predicate on every node and the
recursive predicate on every dict node (its key set is vacuously a subset
and it imposes no constraint), so filtering with the empty filter keeps
every mapping. -/
theorem claim_C10_empty_filter :
    (∀ nf : List (String × JVal), strict_filter nf [] = true) ∧
    (∀ nf : List (String × JVal), recursive_filter (JVal.obj nf) [] = some true) ∧
    (∀ (ms : List JVal) (strict : Bool),
      (∀ m ∈ ms, (matchesOf strict [] m).isSome = true) →
      filter_mappings ms [] strict 0 = some ms) := by
  have hstrict : ∀ nf : List (String × JVal), strict_filter nf [] = true := by
    intro nf
    unfold strict_filter
    rw [if_neg (by simp [dictKeys, List.inter_def])]
    rfl
  have hrec : ∀ nf : List (String × JVal),
      recursive_filter (JVal.obj nf) [] = some true := by
    intro nf
    rw [recursive_filter_obj, if_neg (by simp [dictKeys, List.inter_def])]
    rfl
  refine ⟨hstrict, hrec, ?_⟩
  intro ms strict h
  have hmatch : ∀ m ∈ ms, matchesOf strict [] m = some true := by
    intro m hm
    cases strict
    · cases m with
      | obj nf =>
        show recursive_filter (JVal.obj nf) [] = some true
        exact hrec nf
      | null => exact absurd (h _ hm) (by simp [matchesOf, recursive_filter])
      | bool b => exact absurd (h _ hm) (by simp [matchesOf, recursive_filter])
      | num n => exact absurd (h _ hm) (by simp [matchesOf, recursive_filter])
      | str s => exact absurd (h _ hm) (by simp [matchesOf, recursive_filter])
      | arr xs => exact absurd (h _ hm) (by simp [matchesOf, recursive_filter])
    · rw [matchesOf_strict_eq (h m hm), hstrict]
  unfold filter_mappings
  rw [fmLoop_limit_zero _ (fun _ => true) ms [] 0 hmatch]
  simp

/-- Witness for C10 on the sample server. -/
theorem claim_C10_empty_filter_witness :
    strict_filter (objFields sampleMapping) [] = true ∧
    recursive_filter sampleMapping [] = some true ∧
    filter_mappings [sampleMapping] [] true 0 = some [sampleMapping] := by
  refine ⟨claim_C10_empty_filter.1 _, ?_,
    claim_C10_empty_filter.2.2 [sampleMapping] true (by decide)⟩
  exact claim_C10_empty_filter.2.1 (objFields sampleMapping)

end ChaosWM
